import Mathlib

/-
Verification development for the configuration-materialization utility in
src/climatecontrol/settings_parser.py.  Python dicts are modelled as
insertion-ordered association lists, machine strings as Lean Strings, and
Python exceptions as the error side of Except.
-/

set_option maxHeartbeats 4000000

/-- A value in a nested settings mapping: either a raw string leaf or a
nested string-keyed mapping (modelling the Python dicts that
settings_parser.py builds, as insertion-ordered association lists). -/
inductive Value where
  | str : String → Value
  | map : List (String × Value) → Value

/-- A Python dict with string keys and nested settings values. -/
abbrev Dict := List (String × Value)

/-- Python `d[k]` / `d.get(k)` lookup on an insertion-ordered dict. -/
def dictGet? : Dict → String → Option Value
  | [], _ => none
  | (k2, v) :: rest, k => if k2 = k then some v else dictGet? rest k

/-- Python `d[k] = v`: replaces the value at an existing key in place,
otherwise appends the new binding at the end. -/
def dictInsert : Dict → String → Value → Dict
  | [], k, v => [(k, v)]
  | (k2, v2) :: rest, k, v =>
      if k2 = k then (k, v) :: rest else (k2, v2) :: dictInsert rest k v

/-- Python shallow `dest.update(src)` where `src` is a dict. -/
def dictUpdate : Dict → Dict → Dict
  | d, [] => d
  | d, (k, v) :: rest => dictUpdate (dictInsert d k v) rest

/-- Whether a dict contains a top-level key. -/
def keysContain : Dict → String → Bool
  | [], _ => false
  | (k2, _) :: rest, k => (k2 == k) || keysContain rest k

mutual
/-- A value is duplicate-free if every nested dict in it has pairwise
distinct keys (true of every real Python dict). -/
def nodupV : Value → Bool
  | Value.str _ => true
  | Value.map d => nodupD d

/-- A dict is duplicate-free if its keys are pairwise distinct and all of
its values are duplicate-free. -/
def nodupD : Dict → Bool
  | [] => true
  | (k, v) :: rest => !(keysContain rest k) && nodupV v && nodupD rest
end

/-- The exception Python raises when `update_nested` recurses into a string
destination: the first source item decides whether `.get` (AttributeError)
or item assignment (TypeError) is attempted. -/
def strUpdateErr : Dict → String
  | (_, Value.map _) :: _ => "AttributeError: str object has no attribute get"
  | _ => "TypeError: str object does not support item assignment"

mutual
/-- `update_nested(d, u)` from settings_parser.py: for each (k, v) in u,
process the item with `unStep` and continue with the rest. -/
def update_nested : Dict → Dict → Except String Dict
  | d, [] => Except.ok d
  | d, (k, v) :: rest =>
    match unStep d k v with
    | Except.error e => Except.error e
    | Except.ok d2 => update_nested d2 rest

/-- One loop iteration of `update_nested` on item (k, v): a mapping v is
recursively merged into `d.get(k, {})` and stored at k; any other v is
assigned directly.  When `d.get(k)` yields a string scalar, the Python
recursion into it crashes on the first item of v (a string has no `.get`
attribute and no item assignment) and returns the string unchanged when v
is empty; that unfolding is inlined here. -/
def unStep : Dict → String → Value → Except String Dict
  | d, k, Value.str s => Except.ok (dictInsert d k (Value.str s))
  | d, k, Value.map m =>
    match dictGet? d k with
    | some (Value.str s) =>
        if m.isEmpty then Except.ok (dictInsert d k (Value.str s))
        else Except.error (strUpdateErr m)
    | some (Value.map dm) =>
        match update_nested dm m with
        | Except.error e => Except.error e
        | Except.ok r => Except.ok (dictInsert d k (Value.map r))
    | none =>
        match update_nested [] m with
        | Except.error e => Except.error e
        | Except.ok r => Except.ok (dictInsert d k (Value.map r))
end

mutual
/-- Boolean equality on values, to obtain decidable equality. -/
def beqV : Value → Value → Bool
  | Value.str a, Value.str b => a == b
  | Value.map a, Value.map b => beqD a b
  | _, _ => false

/-- Boolean equality on dicts. -/
def beqD : List (String × Value) → List (String × Value) → Bool
  | [], [] => true
  | (k1, v1) :: r1, (k2, v2) :: r2 => (k1 == k2) && beqV v1 v2 && beqD r1 r2
  | _, _ => false
end

mutual
theorem beqV_iff : ∀ (a b : Value), beqV a b = true ↔ a = b
  | Value.str a, Value.str b => by simp [beqV]
  | Value.str a, Value.map b => by simp [beqV]
  | Value.map a, Value.str b => by simp [beqV]
  | Value.map a, Value.map b => by
      have h := beqD_iff a b
      simp [beqV, h]

theorem beqD_iff : ∀ (a b : List (String × Value)), beqD a b = true ↔ a = b
  | [], [] => by simp [beqD]
  | [], (k, v) :: r => by simp [beqD]
  | (k, v) :: r, [] => by simp [beqD]
  | (k1, v1) :: r1, (k2, v2) :: r2 => by
      have h1 := beqV_iff v1 v2
      have h2 := beqD_iff r1 r2
      simp [beqD, h1, h2]
end

instance : DecidableEq Value := fun a b => decidable_of_iff _ (beqV_iff a b)

/-- Filter specifications accepted by `subtree`: Python None, a string, a
mapping from keys to sub-filters, or an iterable of sub-filters. -/
inductive Filters where
  | none : Filters
  | str : String → Filters
  | map : List (String × Filters) → Filters
  | list : List Filters → Filters

/-- Python truthiness test `not filters` for a filter specification. -/
def filtersFalsy : Filters → Bool
  | Filters.none => true
  | Filters.str s => s.data.isEmpty
  | Filters.map l => l.isEmpty
  | Filters.list l => l.isEmpty

/-- `'.'.join(parent_hierarchy)`. -/
def dotJoin : List String → String
  | [] => ""
  | [x] => x
  | x :: xs => x ++ "." ++ dotJoin xs

/-- The warning `subtree` logs when a single-key filter misses. -/
def warnMsg (parents : List String) (key : String) : String :=
  "Section " ++ dotJoin parents ++ "." ++ key ++ " not found in data"

/-- `subtree(data, key)` for a string filter `key`: the falsy / wildcard
check passes `data` through; otherwise `data[key]` is looked up, a missing
key degrades to an empty dict plus one logged warning, and indexing a
string raises TypeError (uncaught, since only KeyError is handled). -/
def strFilter (data : Value) (key : String) (parents : List String) :
    Except String (Value × List String) :=
  if key.data.isEmpty || key = "*" then Except.ok (data, [])
  else
    match data with
    | Value.map d =>
      match dictGet? d key with
      | some v => Except.ok (v, [])
      | none => Except.ok (Value.map [], [warnMsg parents key])
    | Value.str _ => Except.error "TypeError: string indices must be integers"

/-- Python `new_data.update(subdata)` where `subdata` is an arbitrary
value: a dict merges shallowly; a non-empty string raises ValueError (its
characters are not key-value pairs); an empty string is a no-op. -/
def pyDictUpdate (acc : Dict) (v : Value) : Except String Dict :=
  match v with
  | Value.map u => Except.ok (dictUpdate acc u)
  | Value.str s =>
    if s.data.isEmpty then Except.ok acc
    else Except.error "ValueError: dictionary update sequence element has length 1; 2 is required"

mutual
/-- `subtree(data, filters, parent_hierarchy)` from settings_parser.py.
Returns the selected value together with the list of warnings logged, in
emission order, or the Python exception raised. -/
def subtree (data : Value) (f : Filters) (parents : List String) :
    Except String (Value × List String) :=
  match f with
  | Filters.none => Except.ok (data, [])
  | Filters.str key => strFilter data key parents
  | Filters.map l =>
    if l.isEmpty then Except.ok (data, [])
    else subtreeMapGo data l parents [] []
  | Filters.list l =>
    if l.isEmpty then Except.ok (data, [])
    else subtreeListGo data l parents [] []

/-- The loop over a mapping filter: for each (k, v), look up k in `data`
(with the default empty parent path, as in the source), filter that result
by v with the parent path extended by k, and shallow-update the output. -/
def subtreeMapGo (data : Value) (l : List (String × Filters)) (parents : List String)
    (acc : Dict) (ws : List String) : Except String (Value × List String) :=
  match l with
  | [] => Except.ok (Value.map acc, ws)
  | (k, v) :: rest =>
    match strFilter data k [] with
    | Except.error e => Except.error e
    | Except.ok (subroot, ws1) =>
      match subtree subroot v (parents ++ [k]) with
      | Except.error e => Except.error e
      | Except.ok (subdata, ws2) =>
        match pyDictUpdate acc subdata with
        | Except.error e => Except.error e
        | Except.ok acc2 => subtreeMapGo data rest parents acc2 (ws ++ ws1 ++ ws2)

/-- The loop over an iterable filter: each element filters the original
`data` independently with the unextended parent path, and the results are
shallow-updated into one output. -/
def subtreeListGo (data : Value) (l : List Filters) (parents : List String)
    (acc : Dict) (ws : List String) : Except String (Value × List String) :=
  match l with
  | [] => Except.ok (Value.map acc, ws)
  | f :: rest =>
    match subtree data f parents with
    | Except.error e => Except.error e
    | Except.ok (sub, ws1) =>
      match pyDictUpdate acc sub with
      | Except.error e => Except.error e
      | Except.ok acc2 => subtreeListGo data rest parents acc2 (ws ++ ws1)
end

/-- Python `s.lower()`. -/
def pyLower (s : String) : String := String.mk (s.data.map Char.toLower)

/-- Python `s.upper()`. -/
def pyUpper (s : String) : String := String.mk (s.data.map Char.toUpper)

/-- Python `s.rstrip(c)` for a single strip character. -/
def rstripChar (s : String) (c : Char) : String :=
  String.mk (((s.data.reverse).dropWhile (fun x => x == c)).reverse)

/-- Python `s.strip(c)` for a single strip character. -/
def stripChar (s : String) (c : Char) : String :=
  String.mk ((((s.data.dropWhile (fun x => x == c)).reverse).dropWhile (fun x => x == c)).reverse)

/-- Whether the character list `s` begins with the character list `pat`. -/
def charsLead : List Char → List Char → Bool
  | [], _ => true
  | _ :: _, [] => false
  | a :: pa, b :: sb => (a == b) && charsLead pa sb

/-- Python `s.startswith(pat)`. -/
def strStarts (s pat : String) : Bool := charsLead pat.data s.data

/-- Python `s.lstrip()` (no argument: strip leading whitespace). -/
def pyLstrip (s : String) : String := String.mk (s.data.dropWhile Char.isWhitespace)

/-- Python `sep.join(parts)`. -/
def joinSep (sep : String) : List String → String
  | [] => ""
  | [x] => x
  | x :: xs => x ++ sep ++ joinSep sep xs

/-- `build_env_var(*parts)` from settings_parser.py with the default split
character: strip underscores off each part, upper-case it, and join the
parts with single underscores. -/
def build_env_var (parts : List String) : String :=
  joinSep "_" (parts.map (fun p => pyUpper (stripChar p '_')))

/-- Python `s.split(c, maxsplit)` on character lists: split on `c` at most
`maxsplit` times; once the budget is exhausted the remaining characters
(including further split characters) form the final piece. -/
def pySplitCore (c : Char) : List Char → Nat → List Char → List (List Char)
  | [], _, acc => [acc.reverse]
  | x :: rest, m, acc =>
    if x == c then
      match m with
      | 0 => pySplitCore c rest 0 (x :: acc)
      | Nat.succ m2 => acc.reverse :: pySplitCore c rest m2 []
    else pySplitCore c rest m (x :: acc)

/-- Python `s.split(c, maxsplit)`.  Note `"".split(c, n) == [""]`: the
result is never the empty list. -/
def pySplit (s : String) (c : Char) (maxsplit : Nat) : List String :=
  (pySplitCore c s.data maxsplit []).map String.mk

/-- The single-branch nested dict built from the split pieces of one
environment variable name: every piece but the last is a nesting level and
the last piece maps to the raw value. -/
def buildUpdate : List String → String → Dict
  | [], _ => []
  | [k], value => [(k, Value.str value)]
  | k :: rest, value => [(k, Value.map (buildUpdate rest value))]

/-- The loop of `parse_env_vars` over the environment snapshot: skip
excluded or non-matching names, split the rest of the name, build the
single-branch update and deep-merge it into the accumulator. -/
def parseEnvGo (envl : List (String × String)) (pfx2 : String) (c : Char)
    (max_depth : Nat) (excl : List String) (acc : Dict) : Except String Dict :=
  match envl with
  | [] => Except.ok acc
  | (name, value) :: rest =>
    let low := pyLower name
    if excl.contains low || !(strStarts low pfx2) then
      parseEnvGo rest pfx2 c max_depth excl acc
    else
      let nested_keys := pySplit (String.mk (low.data.drop pfx2.data.length)) c max_depth
      if nested_keys.isEmpty then
        parseEnvGo rest pfx2 c max_depth excl acc
      else
        match update_nested acc (buildUpdate nested_keys value) with
        | Except.error e => Except.error e
        | Except.ok acc2 => parseEnvGo rest pfx2 c max_depth excl acc2

/-- `parse_env_vars` from settings_parser.py, with the process environment
injected as an ordered snapshot `envl`.  The split character must be a
single character; the lower-cased prefix is right-stripped of the split
character and one split character is appended; a prefix of effective
length zero yields an empty dict immediately. -/
def parse_env_vars (envl : List (String × String)) (pfx : String)
    (max_depth : Nat) (split_char : String) (exclude : List String) :
    Except String Dict :=
  match (pyLower split_char).data with
  | [c] =>
    let pfx2 := String.mk ((rstripChar (pyLower pfx) c).data ++ [c])
    if pfx2.data.length ≤ 1 then Except.ok []
    else parseEnvGo envl pfx2 c max_depth (exclude.map pyLower) []
  | _ => Except.error "ValueError: split_char must be a single character"

/-- A Python object passed as the `parser` argument, with just enough
structure to model truthiness and callability. -/
inductive PyObj where
  | pnone : PyObj
  | pbool : Bool → PyObj
  | pint : Int → PyObj
  | pstr : String → PyObj
  | pfunc : (Value → Value) → PyObj

/-- Python truthiness of a `PyObj`. -/
def PyObj.truthy : PyObj → Bool
  | PyObj.pnone => false
  | PyObj.pbool b => b
  | PyObj.pint n => !(n == 0)
  | PyObj.pstr s => !s.data.isEmpty
  | PyObj.pfunc _ => true

/-- Python `callable`. -/
def PyObj.callable : PyObj → Bool
  | PyObj.pfunc _ => true
  | _ => false

/-- The external world a `Settings` construction observes: the environment
snapshot plus the out-of-scope file collaborator (existence test and the
parsed content of path-files and inline text, per the spec these are thin
external collaborators consumed as already-parsed nested mappings). -/
structure World where
  env : List (String × String)
  isfile : String → Bool
  tomlLoad : String → Dict
  tomlLoads : String → Dict

/-- The constructor arguments of `Settings` (env_pfx models the
`env_prefix` argument). -/
structure SettingsArgs where
  settings_file : Option String
  env_pfx : String
  suffix : String
  filters : Filters
  parserArg : PyObj

/-- Python `os.environ.get(k)` (exact, case-sensitive lookup). -/
def envGet : List (String × String) → String → Option String
  | [], _ => none
  | (n, v) :: rest, k => if n = k then some v else envGet rest k

/-- Python truthiness of an optional string. -/
def optTruthy : Option String → Bool
  | Option.none => false
  | some s => !s.data.isEmpty

/-- `Settings._read_file`: a falsy settings-file source yields an empty
dict; an existing file or inline text beginning (after lstrip) with an
opening bracket yields the parsed dict; any other truthy string falls off
the end of the function, i.e. returns Python None. -/
def read_file (sf : Option String) (w : World) : Option Dict :=
  match sf with
  | Option.none => some []
  | some s =>
    if s.data.isEmpty then some []
    else if w.isfile s then some (w.tomlLoad s)
    else if strStarts (pyLstrip s) "[" then some (w.tomlLoads s)
    else none

/-- `Settings.parse`: a truthy stored parser is called on the data (a
truthy non-callable would raise, but construction already rejected it);
a falsy one passes the data through. -/
def settingsParse (p : PyObj) (v : Value) : Except String Value :=
  if PyObj.truthy p then
    match p with
    | PyObj.pfunc f => Except.ok (f v)
    | _ => Except.error "TypeError: object is not callable"
  else Except.ok v

/-- `build_env_var(build_env_var(env_prefix), settings_file_env_suffix)`:
the derived settings-file environment variable name. -/
def settingsFileEnvVar (a : SettingsArgs) : String :=
  build_env_var [build_env_var [a.env_pfx], a.suffix]

/-- `settings_file or os.environ.get(settings_file_env_var)`. -/
def effectiveSF (w : World) (a : SettingsArgs) : Option String :=
  if optTruthy a.settings_file then a.settings_file
  else envGet w.env (settingsFileEnvVar a)

/-- The exception raised by `update_nested(d, None)`. -/
def noneItemsErr : String := "AttributeError: NoneType object has no attribute items"

/-- `Settings.build_settings_map`: merge the environment-derived dict into
an empty dict, merge the file-derived dict on top (a None from
`_read_file` crashes this second merge), filter the result with the
configured filters under the parent path ["settings"], and apply the
optional parser. -/
def build_settings_map (w : World) (a : SettingsArgs) : Except String Value :=
  match parse_env_vars w.env (build_env_var [a.env_pfx]) 1 "_" [settingsFileEnvVar a] with
  | Except.error e => Except.error e
  | Except.ok em =>
    match update_nested [] em with
    | Except.error e => Except.error e
    | Except.ok m1 =>
      match read_file (effectiveSF w a) w with
      | Option.none => Except.error noneItemsErr
      | some fm =>
        match update_nested m1 fm with
        | Except.error e => Except.error e
        | Except.ok m2 =>
          match subtree (Value.map m2) a.filters ["settings"] with
          | Except.error e => Except.error e
          | Except.ok (v, _) => settingsParse a.parserArg v

/-- `Settings.__init__`: reject a truthy non-callable parser before
anything else happens, then eagerly build the settings map. -/
def settingsInit (w : World) (a : SettingsArgs) : Except String Value :=
  if PyObj.truthy a.parserArg && !(PyObj.callable a.parserArg) then
    Except.error "TypeError: If given, parser must be a callable"
  else build_settings_map w a

/-- The two merge calls of `build_settings_map` in order: the
environment-derived dict into an empty dict, then the file-derived dict on
top. -/
def mergedMap (em fm : Dict) : Except String Dict :=
  match update_nested [] em with
  | Except.error e => Except.error e
  | Except.ok m1 => update_nested m1 fm

/-- Lookup of a string leaf along a nested key path. -/
def leafAt : Value → List String → Option String
  | Value.str s, [] => some s
  | Value.map d, k :: p =>
    match dictGet? d k with
    | some v => leafAt v p
    | Option.none => none
  | _, _ => none

theorem dictGet?_insert_self : ∀ (d : Dict) (k : String) (v : Value),
    dictGet? (dictInsert d k v) k = some v := by
  intro d k v
  induction d with
  | nil => simp [dictInsert, dictGet?]
  | cons hd tl ih =>
    obtain ⟨k2, v2⟩ := hd
    by_cases h : k2 = k
    · simp [dictInsert, h, dictGet?]
    · simp [dictInsert, h, dictGet?, ih]

theorem dictGet?_insert_ne : ∀ (d : Dict) (k2 k : String) (v : Value), k2 ≠ k →
    dictGet? (dictInsert d k2 v) k = dictGet? d k := by
  intro d k2 k v hne
  induction d with
  | nil => simp [dictInsert, dictGet?, hne]
  | cons hd tl ih =>
    obtain ⟨k3, v3⟩ := hd
    by_cases h : k3 = k2
    · subst h
      simp [dictInsert, dictGet?, hne]
    · by_cases h2 : k3 = k
      · simp [dictInsert, dictGet?, h, h2, Ne.symm hne]
      · simp [dictInsert, dictGet?, h, h2, ih]

theorem unStep_lookup_ne : ∀ (d : Dict) (k0 k : String) (v : Value) (d2 : Dict), k0 ≠ k →
    unStep d k0 v = Except.ok d2 → dictGet? d2 k = dictGet? d k := by
  intro d k0 k v d2 hne h
  cases v with
  | str s =>
    simp only [unStep, Except.ok.injEq] at h
    rw [← h, dictGet?_insert_ne _ _ _ _ hne]
  | map m =>
    simp only [unStep] at h
    split at h
    · split at h
      · simp only [Except.ok.injEq] at h
        rw [← h, dictGet?_insert_ne _ _ _ _ hne]
      · simp at h
    · split at h
      · simp at h
      · simp only [Except.ok.injEq] at h
        rw [← h, dictGet?_insert_ne _ _ _ _ hne]
    · split at h
      · simp at h
      · simp only [Except.ok.injEq] at h
        rw [← h, dictGet?_insert_ne _ _ _ _ hne]

theorem un_preserve : ∀ (u d r : Dict) (k : String),
    keysContain u k = false → update_nested d u = Except.ok r →
    dictGet? r k = dictGet? d k := by
  intro u
  induction u with
  | nil =>
    intro d r k _ h
    simp only [update_nested, Except.ok.injEq] at h
    rw [h]
  | cons hd tl ih =>
    obtain ⟨k0, v0⟩ := hd
    intro d r k hkc h
    simp only [keysContain, Bool.or_eq_false_iff] at hkc
    have hne : k0 ≠ k := by
      intro hcontra
      rw [hcontra] at hkc
      simp at hkc
    simp only [update_nested] at h
    cases hs : unStep d k0 v0 with
    | error e => rw [hs] at h; simp at h
    | ok d2 =>
      rw [hs] at h
      rw [ih d2 r k hkc.2 h, unStep_lookup_ne d k0 k v0 d2 hne hs]

theorem un_append : ∀ (xs ys d : Dict),
    update_nested d (xs ++ ys) =
      match update_nested d xs with
      | Except.error e => Except.error e
      | Except.ok m => update_nested m ys := by
  intro xs
  induction xs with
  | nil => intro ys d; simp [update_nested]
  | cons hd tl ih =>
    obtain ⟨k0, v0⟩ := hd
    intro ys d
    simp only [List.cons_append, update_nested]
    cases hs : unStep d k0 v0 with
    | error e => simp
    | ok d2 => simp [ih]

theorem nodup_lookup : ∀ (u : Dict) (k : String) (v : Value),
    nodupD u = true → dictGet? u k = some v → nodupV v = true := by
  intro u
  induction u with
  | nil => intro k v _ h; simp [dictGet?] at h
  | cons hd tl ih =>
    obtain ⟨k0, v0⟩ := hd
    intro k v hnd hget
    simp only [nodupD, Bool.and_eq_true] at hnd
    simp only [dictGet?] at hget
    by_cases h : k0 = k
    · rw [if_pos h] at hget
      cases hget
      exact hnd.1.2
    · rw [if_neg h] at hget
      exact ih k v hnd.2 hget

theorem un_lookup_merge : ∀ (u d r : Dict) (k : String) (v0 : Value),
    nodupD u = true → update_nested d u = Except.ok r → dictGet? u k = some v0 →
    ((∃ s, v0 = Value.str s ∧ dictGet? r k = some (Value.str s)) ∨
     (∃ m sub, v0 = Value.map m ∧ dictGet? r k = some (Value.map sub) ∧
        ((∃ dm, dictGet? d k = some (Value.map dm) ∧ update_nested dm m = Except.ok sub) ∨
         (dictGet? d k = none ∧ update_nested [] m = Except.ok sub))) ∨
     (∃ s, v0 = Value.map [] ∧ dictGet? d k = some (Value.str s) ∧
        dictGet? r k = some (Value.str s))) := by
  intro u
  induction u with
  | nil => intro d r k v0 _ _ hget; simp [dictGet?] at hget
  | cons hd tl ih =>
    obtain ⟨k0, w⟩ := hd
    intro d r k v0 hnd hun hget
    simp only [nodupD, Bool.and_eq_true] at hnd
    simp only [update_nested] at hun
    cases hs : unStep d k0 w with
    | error e => rw [hs] at hun; simp at hun
    | ok d2 =>
      rw [hs] at hun
      simp only [dictGet?] at hget
      by_cases hk : k0 = k
      · subst hk
        rw [if_pos rfl] at hget
        cases hget
        have hkc : keysContain tl k0 = false := by
          cases hkc2 : keysContain tl k0
          · rfl
          · rw [hkc2] at hnd; simp at hnd
        have hpres : dictGet? r k0 = dictGet? d2 k0 := un_preserve tl d2 r k0 hkc hun
        cases w with
        | str s =>
          simp only [unStep, Except.ok.injEq] at hs
          left
          refine ⟨s, rfl, ?_⟩
          rw [hpres, ← hs, dictGet?_insert_self]
        | map m =>
          simp only [unStep] at hs
          split at hs
          · rename_i s hg
            split at hs
            · rename_i hm
              right; right
              refine ⟨s, ?_, hg, ?_⟩
              · rw [List.isEmpty_iff.mp hm]
              · simp only [Except.ok.injEq] at hs
                rw [hpres, ← hs, dictGet?_insert_self]
            · simp at hs
          · rename_i dm hg
            split at hs
            · simp at hs
            · rename_i sub hsub
              simp only [Except.ok.injEq] at hs
              right; left
              refine ⟨m, sub, rfl, ?_, Or.inl ⟨dm, hg, hsub⟩⟩
              rw [hpres, ← hs, dictGet?_insert_self]
          · rename_i hg
            split at hs
            · simp at hs
            · rename_i sub hsub
              simp only [Except.ok.injEq] at hs
              right; left
              refine ⟨m, sub, rfl, ?_, Or.inr ⟨hg, hsub⟩⟩
              rw [hpres, ← hs, dictGet?_insert_self]
      · rw [if_neg hk] at hget
        have hstep : dictGet? d2 k = dictGet? d k := unStep_lookup_ne d k0 k w d2 hk hs
        have := ih d2 r k v0 hnd.2 hun hget
        rw [hstep] at this
        exact this

theorem leaf_wins : ∀ (p : List String) (u d r : Dict) (v : String),
    nodupD u = true → update_nested d u = Except.ok r →
    leafAt (Value.map u) p = some v → leafAt (Value.map r) p = some v := by
  intro p
  induction p with
  | nil => intro u d r v _ _ h; simp [leafAt] at h
  | cons k p2 ih =>
    intro u d r v hnd hun hleaf
    simp only [leafAt] at hleaf
    cases hg : dictGet? u k with
    | none => rw [hg] at hleaf; simp at hleaf
    | some v0 =>
      rw [hg] at hleaf
      have hch := un_lookup_merge u d r k v0 hnd hun hg
      rcases hch with ⟨s, rfl, hrk⟩ | ⟨m, sub, rfl, hrk, hrec⟩ | ⟨s, hv0, hdk, hrk⟩
      · cases p2 with
        | nil =>
          simp only [leafAt, Option.some.injEq] at hleaf
          simp only [leafAt]
          rw [hrk, hleaf]
          simp [leafAt]
        | cons a b => simp [leafAt] at hleaf
      · have hndm : nodupD m = true := by
          have := nodup_lookup u k (Value.map m) hnd hg
          simpa [nodupV] using this
        rcases hrec with ⟨dm, hdk, hok⟩ | ⟨hdk, hok⟩
        · have hres := ih m dm sub v hndm hok hleaf
          simp only [leafAt]
          rw [hrk]
          simpa [leafAt] using hres
        · have hres := ih m [] sub v hndm hok hleaf
          simp only [leafAt]
          rw [hrk]
          simpa [leafAt] using hres
      · subst hv0
        cases p2 with
        | nil => simp [leafAt] at hleaf
        | cons a b => simp [leafAt, dictGet?] at hleaf

theorem str_data_isEmpty_false : ∀ (k : String), k ≠ "" → k.data.isEmpty = false := by
  intro k h
  cases k with
  | mk data =>
    cases data with
    | nil => exact absurd rfl h
    | cons a b => rfl

/-- C1: constructing Settings against the environment snapshot
MY_APP_SECTION1_SUBSECTION1=test1, MY_APP_SECTION2_SUBSECTION2=test2,
MY_APP_SECTION2_SUBSECTION3=test3, MY_APP_SECTION3=not_captured with
env_prefix MY_APP and filters {section1: subsection1, section2: None} does
not produce the documented map: the mapping-filter loop calls
`new_data.update` on the string leaf selected by {section1: subsection1}
and the construction raises ValueError. -/
theorem settings_docstring_example_raises :
    settingsInit
      ⟨[("MY_APP_SECTION1_SUBSECTION1", "test1"), ("MY_APP_SECTION2_SUBSECTION2", "test2"),
        ("MY_APP_SECTION2_SUBSECTION3", "test3"), ("MY_APP_SECTION3", "not_captured")],
       fun _ => false, fun _ => [], fun _ => []⟩
      ⟨Option.none, "MY_APP", "SETTINGS_FILE",
       Filters.map [("section1", Filters.str "subsection1"), ("section2", Filters.none)],
       PyObj.pnone⟩ =
    Except.error "ValueError: dictionary update sequence element has length 1; 2 is required" := rfl

/-- C2: filtering a nested map whose key a holds a nested map containing
key b with the keyed spec {a: b} does not wrap the result back under a:
when data[a][b] is a string leaf the `new_data.update` call raises
ValueError, and when data[a][b] is itself a map the result is that inner
map spliced in unwrapped (here {a: {b: {c: v}}} filtered by {a: b} yields
{c: v}, not {a: {c: v}}). -/
theorem keyed_filter_does_not_wrap :
    subtree (Value.map [("a", Value.map [("b", Value.str "v")])])
        (Filters.map [("a", Filters.str "b")]) [] =
      Except.error "ValueError: dictionary update sequence element has length 1; 2 is required" ∧
    subtree (Value.map [("a", Value.map [("b", Value.map [("c", Value.str "v")])])])
        (Filters.map [("a", Filters.str "b")]) [] =
      Except.ok (Value.map [("c", Value.str "v")], []) :=
  ⟨rfl, rfl⟩

/-- C3: with the merge order of build_settings_map (environment-derived
dict merged into an empty dict, file-derived dict merged on top), every
leaf path present in both sources ends up holding the file-derived value
in the merged result. -/
theorem file_leaf_value_wins :
    ∀ (em fm m2 : Dict) (p : List String) (v1 v2 : String),
      nodupD fm = true →
      leafAt (Value.map em) p = some v1 →
      leafAt (Value.map fm) p = some v2 →
      mergedMap em fm = Except.ok m2 →
      leafAt (Value.map m2) p = some v2 := by
  intro em fm m2 p v1 v2 hnd hem hfm hmm
  simp only [mergedMap] at hmm
  cases h1 : update_nested [] em with
  | error e => rw [h1] at hmm; simp at hmm
  | ok m1 =>
    rw [h1] at hmm
    exact leaf_wins p fm m1 m2 v2 hnd hmm hfm

theorem file_leaf_value_wins_witness :
    leafAt (Value.map [("a", Value.str "2")]) ["a"] = some "2" :=
  file_leaf_value_wins [("a", Value.str "1")] [("a", Value.str "2")] [("a", Value.str "2")]
    ["a"] "1" "2" rfl rfl rfl rfl

/-- C4: filtering with a falsy spec (None, empty string, empty mapping or
empty iterable) returns the data unchanged (in Python the very same
object) with no warnings, and filtering with the wildcard marker * also
returns the data unchanged. -/
theorem subtree_falsy_and_wildcard_identity :
    ∀ (data : Value) (f : Filters) (parents : List String),
      (filtersFalsy f = true → subtree data f parents = Except.ok (data, [])) ∧
      subtree data (Filters.str "*") parents = Except.ok (data, []) := by
  intro data f parents
  constructor
  · intro hf
    cases f with
    | none => simp [subtree]
    | str s =>
      simp only [filtersFalsy] at hf
      simp [subtree, strFilter, hf]
    | map l =>
      simp only [filtersFalsy] at hf
      simp [subtree, hf]
    | list l =>
      simp only [filtersFalsy] at hf
      simp [subtree, hf]
  · simp [subtree, strFilter]

theorem subtree_falsy_and_wildcard_identity_witness :
    subtree (Value.map [("a", Value.str "1")]) Filters.none [] =
      Except.ok (Value.map [("a", Value.str "1")], []) ∧
    subtree (Value.map [("a", Value.str "1")]) (Filters.str "*") [] =
      Except.ok (Value.map [("a", Value.str "1")], []) :=
  ⟨(subtree_falsy_and_wildcard_identity (Value.map [("a", Value.str "1")]) Filters.none []).1 rfl,
   (subtree_falsy_and_wildcard_identity (Value.map [("a", Value.str "1")]) Filters.none []).2⟩

/-- C5: filtering any nested map with a single-string key spec (a genuine
key spec, i.e. not the falsy empty string and not the wildcard) that is
absent from the map returns an empty map together with exactly one
diagnostic naming the dotted parent path plus the key, and never raises. -/
theorem missing_key_filter_warns_once :
    ∀ (d : Dict) (k : String) (parents : List String),
      k ≠ "" → k ≠ "*" → dictGet? d k = none →
      subtree (Value.map d) (Filters.str k) parents =
        Except.ok (Value.map [], [warnMsg parents k]) := by
  intro d k parents hne hstar hget
  have hk : k.data.isEmpty = false := str_data_isEmpty_false k hne
  simp [subtree, strFilter, hk, hstar, hget]

theorem missing_key_filter_warns_once_witness :
    subtree (Value.map [("x", Value.str "1")]) (Filters.str "missing") ["settings"] =
      Except.ok (Value.map [], [warnMsg ["settings"] "missing"]) :=
  missing_key_filter_warns_once [("x", Value.str "1")] "missing" ["settings"]
    (by decide) (by decide) rfl

/-- C7: an environment variable whose name after stripping the normalized
prefix is empty is not skipped: splitting the empty remainder yields the
single piece "" (so the emptiness guard never fires) and the variable
contributes the empty-string key with its raw value. -/
theorem empty_remainder_not_skipped :
    parse_env_vars [("MY_APP_", "v")] "MY_APP" 1 "_" [] =
      Except.ok [("", Value.str "v")] := rfl

/-- C6 counterexample: the integer 0 is a non-callable parser argument,
yet Settings construction succeeds (the guard `if parser and not
callable(parser)` skips every falsy value), so a non-callable parser does
not always raise. -/
theorem falsy_noncallable_parser_accepted :
    PyObj.callable (PyObj.pint 0) = false ∧
    settingsInit ⟨[], fun _ => false, fun _ => [], fun _ => []⟩
        ⟨Option.none, "APP_SETTINGS", "SETTINGS_FILE", Filters.none, PyObj.pint 0⟩ =
      Except.ok (Value.map []) :=
  ⟨rfl, rfl⟩

/-- C6 amended: every truthy non-callable parser argument makes Settings
construction raise TypeError immediately, uniformly in the environment
and file system (so before any I/O or environment scanning); falsy
non-callable values are accepted and treated as no parser. -/
theorem truthy_noncallable_parser_raises :
    ∀ (w : World) (a : SettingsArgs),
      PyObj.truthy a.parserArg = true → PyObj.callable a.parserArg = false →
      settingsInit w a = Except.error "TypeError: If given, parser must be a callable" := by
  intro w a ht hc
  simp [settingsInit, ht, hc]

theorem truthy_noncallable_parser_raises_witness :
    settingsInit ⟨[], fun _ => false, fun _ => [], fun _ => []⟩
        ⟨Option.none, "APP_SETTINGS", "SETTINGS_FILE", Filters.none, PyObj.pint 7⟩ =
      Except.error "TypeError: If given, parser must be a callable" :=
  truthy_noncallable_parser_raises ⟨[], fun _ => false, fun _ => [], fun _ => []⟩
    ⟨Option.none, "APP_SETTINGS", "SETTINGS_FILE", Filters.none, PyObj.pint 7⟩ rfl rfl

/-- C8 counterexample: merging src {a: {b: y}} into dest {a: x} does not
treat the non-map scalar dest[a] as an empty map; the recursion into the
string raises (here TypeError on item assignment) instead of producing
{a: {b: y}}. -/
theorem scalar_dest_merge_errors :
    update_nested [("a", Value.str "x")] [("a", Value.map [("b", Value.str "y")])] =
      Except.error "TypeError: str object does not support item assignment" := rfl

/-- C8 amended: for src = pre ++ (k, v) :: post with k not bound elsewhere
in src, a successful merge into dest satisfies: a non-map src[k] is
written through (last-write-wins); a map src[k] with k absent from dest is
recursively merged into an empty map; a map src[k] with a map at dest[k]
is recursively merged into it; but a non-map scalar at dest[k] is not
treated as an empty map: the merge can only have succeeded when src[k]
was the empty map, and then the scalar survives. -/
theorem update_nested_key_characterization :
    ∀ (d pre post : Dict) (k : String) (v : Value) (r : Dict),
      keysContain pre k = false → keysContain post k = false →
      update_nested d (pre ++ (k, v) :: post) = Except.ok r →
      ((∀ s, v = Value.str s → dictGet? r k = some (Value.str s)) ∧
       (∀ m, v = Value.map m → dictGet? d k = none →
          ∃ sub, update_nested [] m = Except.ok sub ∧ dictGet? r k = some (Value.map sub)) ∧
       (∀ m dm, v = Value.map m → dictGet? d k = some (Value.map dm) →
          ∃ sub, update_nested dm m = Except.ok sub ∧ dictGet? r k = some (Value.map sub)) ∧
       (∀ m s, v = Value.map m → dictGet? d k = some (Value.str s) →
          m = [] ∧ dictGet? r k = some (Value.str s))) := by
  intro d pre post k v r hpre hpost hok
  rw [un_append] at hok
  cases h1 : update_nested d pre with
  | error e => rw [h1] at hok; simp at hok
  | ok dmid =>
    rw [h1] at hok
    have hmid : dictGet? dmid k = dictGet? d k := un_preserve pre d dmid k hpre h1
    simp only [update_nested] at hok
    cases hs : unStep dmid k v with
    | error e => rw [hs] at hok; simp at hok
    | ok dstep =>
      rw [hs] at hok
      have hpost2 : dictGet? r k = dictGet? dstep k := un_preserve post dstep r k hpost hok
      refine ⟨?_, ?_, ?_, ?_⟩
      · intro s hv
        subst hv
        simp only [unStep, Except.ok.injEq] at hs
        rw [hpost2, ← hs, dictGet?_insert_self]
      · intro m hv hd
        subst hv
        simp only [unStep] at hs
        split at hs
        · rename_i s hg
          rw [hmid, hd] at hg
          cases hg
        · rename_i dm hg
          rw [hmid, hd] at hg
          cases hg
        · split at hs
          · simp at hs
          · rename_i sub hsub
            simp only [Except.ok.injEq] at hs
            exact ⟨sub, hsub, by rw [hpost2, ← hs, dictGet?_insert_self]⟩
      · intro m dm hv hd
        subst hv
        simp only [unStep] at hs
        split at hs
        · rename_i s hg
          rw [hmid, hd] at hg
          cases hg
        · rename_i dm2 hg
          rw [hmid, hd] at hg
          injection hg with hg2
          injection hg2 with hg3
          subst hg3
          split at hs
          · simp at hs
          · rename_i sub hsub
            simp only [Except.ok.injEq] at hs
            exact ⟨sub, hsub, by rw [hpost2, ← hs, dictGet?_insert_self]⟩
        · rename_i hg
          rw [hmid, hd] at hg
          cases hg
      · intro m s hv hd
        subst hv
        simp only [unStep] at hs
        split at hs
        · rename_i s2 hg
          rw [hmid, hd] at hg
          injection hg with hg2
          injection hg2 with hg3
          subst hg3
          split at hs
          · rename_i hm
            simp only [Except.ok.injEq] at hs
            exact ⟨List.isEmpty_iff.mp hm, by rw [hpost2, ← hs, dictGet?_insert_self]⟩
          · simp at hs
        · rename_i dm2 hg
          rw [hmid, hd] at hg
          cases hg
        · rename_i hg
          rw [hmid, hd] at hg
          cases hg

theorem update_nested_key_characterization_witness :
    ∃ sub, update_nested [("x", Value.str "1")] [("y", Value.str "2")] = Except.ok sub ∧
      dictGet? [("a", Value.map [("x", Value.str "1"), ("y", Value.str "2")])] "a" =
        some (Value.map sub) :=
  (update_nested_key_characterization [("a", Value.map [("x", Value.str "1")])] [] [] "a"
      (Value.map [("y", Value.str "2")])
      [("a", Value.map [("x", Value.str "1"), ("y", Value.str "2")])]
      rfl rfl rfl).2.2.1 [("y", Value.str "2")] [("x", Value.str "1")] rfl rfl

/-- C9 counterexample: filtering {a: {x: {p: 1}}, b: {x: {q: 2}}} with the
collection spec [a, b] gives {x: {q: 2}} (the second result shallowly
overwrites the shared top-level key x wholesale), while deep-merging the
two individual filter results would give {x: {p: 1, q: 2}}: the two
disagree. -/
theorem list_filter_shallow_union_cex :
    subtree (Value.map [("a", Value.map [("x", Value.map [("p", Value.str "1")])]),
                        ("b", Value.map [("x", Value.map [("q", Value.str "2")])])])
        (Filters.list [Filters.str "a", Filters.str "b"]) [] =
      Except.ok (Value.map [("x", Value.map [("q", Value.str "2")])], []) ∧
    update_nested [("x", Value.map [("p", Value.str "1")])]
        [("x", Value.map [("q", Value.str "2")])] =
      Except.ok [("x", Value.map [("p", Value.str "1"), ("q", Value.str "2")])] ∧
    Value.map [("x", Value.map [("q", Value.str "2")])] ≠
      Value.map [("x", Value.map [("p", Value.str "1"), ("q", Value.str "2")])] :=
  ⟨rfl, rfl, by decide⟩

/-- C9 amended: filtering data with the collection spec [a, b] (both keys
present with map values) applies each element filter independently to the
original data and combines the results with the shallow dict update, i.e.
equals `dict.update` of the two filter results (later entries overwrite
colliding top-level keys wholesale), not a recursive deep merge. -/
theorem list_filter_is_shallow_union :
    ∀ (d A B : Dict) (a b : String) (parents : List String),
      a ≠ "" → a ≠ "*" → b ≠ "" → b ≠ "*" →
      dictGet? d a = some (Value.map A) → dictGet? d b = some (Value.map B) →
      subtree (Value.map d) (Filters.list [Filters.str a, Filters.str b]) parents =
        Except.ok (Value.map (dictUpdate (dictUpdate [] A) B), []) := by
  intro d A B a b parents ha1 ha2 hb1 hb2 hA hB
  have ha : a.data.isEmpty = false := str_data_isEmpty_false a ha1
  have hb : b.data.isEmpty = false := str_data_isEmpty_false b hb1
  simp [subtree, subtreeListGo, strFilter, ha, hb, ha2, hb2, hA, hB, pyDictUpdate]

theorem list_filter_is_shallow_union_witness :
    subtree (Value.map [("a", Value.map [("x", Value.str "1")]),
                        ("b", Value.map [("y", Value.str "2")])])
        (Filters.list [Filters.str "a", Filters.str "b"]) ["settings"] =
      Except.ok (Value.map (dictUpdate (dictUpdate [] [("x", Value.str "1")])
        [("y", Value.str "2")]), []) :=
  list_filter_is_shallow_union
    [("a", Value.map [("x", Value.str "1")]), ("b", Value.map [("y", Value.str "2")])]
    [("x", Value.str "1")] [("y", Value.str "2")] "a" "b" ["settings"]
    (by decide) (by decide) (by decide) (by decide) rfl rfl

/-- C10: when the effective settings-file source is a truthy string that
is neither an existing file nor text whose left-stripped form begins with
an opening bracket, `_read_file` falls off the end and returns None, and
construction (given that the parser guard and the environment merge
succeed) fails when that None reaches the second nested-merge call. -/
theorem unreadable_settings_file_fails :
    ∀ (w : World) (a : SettingsArgs) (s : String) (em m1 : Dict),
      (PyObj.truthy a.parserArg = true → PyObj.callable a.parserArg = true) →
      effectiveSF w a = some s →
      s ≠ "" → w.isfile s = false → strStarts (pyLstrip s) "[" = false →
      parse_env_vars w.env (build_env_var [a.env_pfx]) 1 "_" [settingsFileEnvVar a] =
        Except.ok em →
      update_nested [] em = Except.ok m1 →
      read_file (effectiveSF w a) w = none ∧
      settingsInit w a = Except.error noneItemsErr := by
  intro w a s em m1 hp hsf hne hisf hbr hem hm1
  have hsd : s.data.isEmpty = false := str_data_isEmpty_false s hne
  have hrf : read_file (effectiveSF w a) w = none := by
    rw [hsf]
    simp [read_file, hsd, hisf, hbr]
  refine ⟨hrf, ?_⟩
  have hguard : (PyObj.truthy a.parserArg && !(PyObj.callable a.parserArg)) = false := by
    cases ht : PyObj.truthy a.parserArg
    · simp
    · simp [hp ht]
  simp only [settingsInit, hguard, Bool.false_eq_true, if_false]
  simp only [build_settings_map, hem, hm1, hrf]

theorem unreadable_settings_file_fails_witness :
    read_file (effectiveSF ⟨[], fun _ => false, fun _ => [], fun _ => []⟩
        ⟨some "no_file.toml", "APP_SETTINGS", "SETTINGS_FILE", Filters.none, PyObj.pnone⟩)
        ⟨[], fun _ => false, fun _ => [], fun _ => []⟩ = none ∧
    settingsInit ⟨[], fun _ => false, fun _ => [], fun _ => []⟩
        ⟨some "no_file.toml", "APP_SETTINGS", "SETTINGS_FILE", Filters.none, PyObj.pnone⟩ =
      Except.error noneItemsErr :=
  unreadable_settings_file_fails ⟨[], fun _ => false, fun _ => [], fun _ => []⟩
    ⟨some "no_file.toml", "APP_SETTINGS", "SETTINGS_FILE", Filters.none, PyObj.pnone⟩
    "no_file.toml" [] [] (fun h => absurd h (by decide)) rfl (by decide) rfl rfl rfl rfl
